import Mathlib

/-!
Verification development for the binrec trace-capture and block-finalization
engine (src/binrec_plugins/Export.cpp and src/binrec_plugins/FunctionLog.cpp).

The C++ plugins are embedded shallowly: every map is a Lean function or an
association list, every stateful method becomes a pure state-passing function,
and the external code generator/execution engine appear as explicit inputs
(generated functions, event lists).  Machine integers are Nat; where the C++
narrows a value to uint32_t we apply an explicit mod 2^32 (u32).
-/

namespace Binrec

/-- Truncation to uint32_t, applied where the C++ stores a pc into a
32-bit variable or pair component. -/
def u32 (x : Nat) : Nat := x % 4294967296

/-! ## Export.cpp: instruction/function model

An LLVM instruction is abstracted by the two attributes Export.cpp inspects:
whether it is an `AllocaInst` (`skipAllocas`) and, when it is a direct call,
the name of the callee (`isFuncCallAndValid` checks for
"helper_raise_exception"). -/

structure Inst where
  isAlloca : Bool
  calledName : Option String
deriving DecidableEq, Repr

/-- Export::isFuncCallAndValid (Export.cpp:262-271): false exactly when the
instruction is a direct call to a function named "helper_raise_exception". -/
def isFuncCallAndValid (i : Inst) : Bool :=
  match i.calledName with
  | some n => !(n == "helper_raise_exception")
  | none => true

/-- An LLVM function as Export.cpp sees it: its ordered list of basic blocks,
each an ordered list of instructions. -/
structure Func where
  blocks : List (List Inst)
deriving DecidableEq, Repr

/-- skipAllocas (Export.cpp:254-259): advance past the leading run of
AllocaInst. -/
def skipAllocas (l : List Inst) : List Inst :=
  l.dropWhile (fun i => i.isAlloca)

/-- skipInst (Export.cpp:330-339): advance an iterator `size` times, except
that a negative `size` leaves it in place. -/
def skipInst (l : List Inst) (size : Int) : List Inst :=
  if size < 0 then l else l.drop size.toNat

/-- The block range iterated by areBBsEqual: skipBB(f->begin(), f->size()-1)
up to f->end(), i.e. only the last basic block (Export.cpp:340-349,379,394).
For a nonempty function this is the singleton list of its last block. -/
def lastBlocks (f : Func) : List (List Inst) :=
  f.blocks.drop (f.blocks.length - 1)

/-- One side's loop body in areBBsEqual (Export.cpp:379-411): per block, skip
leading allocas, add the remaining distance to the running sum, and clear the
validity flag if any of the final 3 remaining instructions (fewer when the
block is shorter) is an exception-raising call. -/
def scanBlocks (blocks : List (List Inst)) (isValid : Bool) : Int × Bool :=
  blocks.foldl
    (fun acc blk =>
      let insts := skipAllocas blk
      let dist : Int := (insts.length : Int)
      let flagged := (skipInst insts (dist - 3)).any (fun i => !(isFuncCallAndValid i))
      (acc.1 + dist, acc.2 && !flagged))
    (0, isValid)

/-- Export::areBBsEqual (Export.cpp:352-438).  `a` is the new function, `b`
the old one; the two Bool arguments are the in/out validity flags (the call
site passes true,true).  Returns (result, aIsValid, bIsValid).  The function
returns false only when both sides are still valid and the post-skip
instruction sums of the last blocks differ; the third loop (Export.cpp:418-435)
re-scans b's last block after the diff check, which can only re-clear an
already-computed flag. -/
def areBBsEqual (a b : Func) (aIsValid bIsValid : Bool) : Bool × Bool × Bool :=
  let aScan := scanBlocks (lastBlocks a) aIsValid
  let bScan := scanBlocks (lastBlocks b) bIsValid
  let aSumInst := aScan.1
  let bSumInst := bScan.1
  let aV := aScan.2
  let bV := bScan.2
  let diff := aSumInst - bSumInst
  if aV && bV && (diff != 0) then (false, aV, bV)
  else
    let bScan2 := scanBlocks (lastBlocks b) bV
    (true, aV, bScan2.2)

/-- The three exits of Export::regenCode (Export.cpp:445-502): return nullptr
after latching m_bbFinalized (finalize), return nullptr keeping the old
function (keepOld), or erase the old function and return the new one
(replace). -/
inductive RegenOutcome
  | finalize
  | keepOld
  | replace
deriving DecidableEq, Repr

/-- The decision structure of Export::regenCode (Export.cpp:445-502) on the
newly generated function and the previously stored one.  Both validity flags
start true; areBBsEqual(newF, old, &newIsValid, &oldIsValid) is consulted. -/
def regenDecision (newF old : Func) : RegenOutcome :=
  let r := areBBsEqual newF old true true
  let equal := r.1
  let newIsValid := r.2.1
  let oldIsValid := r.2.2
  if oldIsValid && newIsValid && equal then RegenOutcome.finalize
  else if oldIsValid && !newIsValid then RegenOutcome.keepOld
  else RegenOutcome.replace

/-- Point update of a total map. -/
def setAt {α : Type} (m : Nat → α) (k : Nat) (v : α) : Nat → α :=
  fun x => if x = k then v else m x

/-- std::map::emplace semantics on a partial map: insert only when the key is
absent. -/
def emplaceAt {α : Type} (m : Nat → Option α) (k : Nat) (v : α) : Nat → Option α :=
  fun x =>
    if x = k then
      match m k with
      | some w => some w
      | none => some v
    else m x

/-- std::set insertion of a pair (duplicates collapse); used for
TraceInfo::successors (Export.cpp:515-518) and for the per-frame block sets in
FunctionLog (FunctionLog.cpp:98). -/
def insertPairSet (l : List (Nat × Nat)) (p : Nat × Nat) : List (Nat × Nat) :=
  if p ∈ l then l else l ++ [p]

/-- The mutable state of the Export plugin: m_bbCounts, m_bbFinalized
(std::map<..,bool>, absent keys read as false), m_tbs (pc to the captured
representation), the shared TraceInfo::successors set, and the
m_regenerateBlocks switch (constructor default true, Export.cpp:38). -/
structure ExportState where
  bbCounts : Nat → Option Nat
  bbFinalized : Nat → Bool
  tbs : Nat → Option Func
  successors : List (Nat × Nat)
  regenerateBlocks : Bool

/-- The state right after Export's constructor: empty maps, regeneration
enabled. -/
def initExport : ExportState :=
  { bbCounts := fun _ => none
    bbFinalized := fun _ => false
    tbs := fun _ => none
    successors := []
    regenerateBlocks := true }

/-- Export::exportBB (Export.cpp:101-155).  `genF` is the function the
external code generator produces for the state's current translation block
(none models a generation failure).  On a first visit m_bbCounts and
m_bbFinalized are written before the null check, so they are set even when
generation fails.  In the regeneration branch m_bbCounts is incremented after
regenCode runs.  In the replace case the stored block's function is rebound to
the new function (cpu_gen_llvm's set_tb_function updates the
S2ETranslationBlock that m_tbs already holds; m_tbs.emplace itself never
overwrites).  The branch where the regeneration path finds no stored old
function dereferences a null pointer in the C++ (reachable only after a failed
first capture); the model totalizes it as a failed call. -/
def exportBB (st : ExportState) (pc : Nat) (genF : Option Func) : Bool × ExportState :=
  let npassed := (st.bbCounts pc).getD 0
  if npassed = 0 then
    let st1 : ExportState :=
      { st with
        bbCounts := setAt st.bbCounts pc (some (if st.regenerateBlocks then 1 else 2))
        bbFinalized := setAt st.bbFinalized pc false }
    match genF with
    | none => (false, st1)
    | some f => (true, { st1 with tbs := emplaceAt st1.tbs pc f })
  else if st.regenerateBlocks && !(st.bbFinalized pc) then
    match st.tbs pc, genF with
    | some old, some newF =>
      match regenDecision newF old with
      | RegenOutcome.finalize =>
        (false,
          { st with
            bbFinalized := setAt st.bbFinalized pc true
            bbCounts := setAt st.bbCounts pc (some (npassed + 1)) })
      | RegenOutcome.keepOld =>
        (false, { st with bbCounts := setAt st.bbCounts pc (some (npassed + 1)) })
      | RegenOutcome.replace =>
        (true,
          { st with
            tbs := setAt st.tbs pc (some newF)
            bbCounts := setAt st.bbCounts pc (some (npassed + 1)) })
    | _, _ =>
      (false, { st with bbCounts := setAt st.bbCounts pc (some (npassed + 1)) })
  else
    (false, st)

/-- Export::getBB (Export.cpp:504-508). -/
def getBB (st : ExportState) (pc : Nat) : Option Func := st.tbs pc

/-- Export::addSuccessor (Export.cpp:510-520): fail on a zero predecessor or
an uncaptured target, otherwise insert the ordered pair into the successors
set. -/
def addSuccessor (st : ExportState) (predPc pc : Nat) : Bool × ExportState :=
  if predPc = 0 || (getBB st pc).isNone then (false, st)
  else (true, { st with successors := insertPairSet st.successors (predPc, pc) })

/-- Export::stopRegeneratingBlocks (Export.cpp:528-532). -/
def stopRegeneratingBlocks (st : ExportState) : ExportState :=
  { st with regenerateBlocks := false }

/-- The operations a client can perform on the Export plugin. -/
inductive ExportOp
  | exportCall (pc : Nat) (genF : Option Func)
  | addSucc (predPc pc : Nat)
  | stopRegen

def applyExportOp (st : ExportState) (op : ExportOp) : ExportState :=
  match op with
  | ExportOp.exportCall pc genF => (exportBB st pc genF).2
  | ExportOp.addSucc p a => (addSuccessor st p a).2
  | ExportOp.stopRegen => stopRegeneratingBlocks st

def runExport (st : ExportState) (ops : List ExportOp) : ExportState :=
  ops.foldl applyExportOp st

/-! ### Spec-side finalization algorithm (for the refinement comparison)

The next three definitions follow the spec's words in section 4.1 ("skip a
leading run of pure local-allocation pseudo-instructions, then inspect only
the final 3 instructions of the side's last basic segment for the presence of
an exception-raising call"; "Compute each side's instruction count
(post-skip)").  They are compared against the code-derived scanBlocks. -/

/-- Spec wording: the final 3 instructions of the side's last basic segment,
after skipping the leading allocation pseudo-instructions. -/
def specLastSegmentWindow (f : Func) : List Inst :=
  match f.blocks.getLast? with
  | none => []
  | some blk =>
    let insts := skipAllocas blk
    insts.drop (insts.length - 3)

/-- Spec wording: a side is invalid when an exception-raising call appears in
that window. -/
def specSideInvalid (f : Func) : Bool :=
  (specLastSegmentWindow f).any (fun i => !(isFuncCallAndValid i))

/-- Spec wording: the side's post-skip instruction count (of the last basic
segment, per claim C10). -/
def specSideCount (f : Func) : Nat :=
  match f.blocks.getLast? with
  | none => 0
  | some blk => (skipAllocas blk).length

/-! ## FunctionLog.cpp: call/return tracking

Modelled from the spec: the TraceInfo aggregate lives in
binrec/tracing/trace_info.hpp, which is not under src/; per the spec (section
3) entryToCaller, entryToReturnSite and callerToFollowUp are multimaps
(insertion keeps duplicates, modelled as list append), entries is an ordered
sequence, and the per-frame block map collapses duplicates (a set, modelled
with insertPairSet).  getCopy/restoreFromCopy are full deep copies, which in
this value-semantic model is plain structure copying. -/

structure TraceInfo where
  entries : List Nat
  entryToTbs : List (Nat × Nat)
  callerToFollowUp : List (Nat × Nat)
  entryToCaller : List (Nat × Nat)
  entryToReturn : List (Nat × Nat)
deriving DecidableEq, Repr

/-- Association-list lookup, mirroring std::map::find/at. -/
def alistLookup {α : Type} : List (Nat × α) → Nat → Option α
  | [], _ => none
  | (k2, v) :: t, k => if k2 = k then some v else alistLookup t k

/-- std::map::emplace: insert only when the key is absent. -/
def alistEmplace {α : Type} (l : List (Nat × α)) (k : Nat) (v : α) : List (Nat × α) :=
  match alistLookup l k with
  | some _ => l
  | none => l ++ [(k, v)]

/-- std::map::erase by key. -/
def alistErase {α : Type} (l : List (Nat × α)) (k : Nat) : List (Nat × α) :=
  l.filter (fun p => p.1 != k)

/-- std::set<uint32_t> insertion (m_modulePcs). -/
def insertNatSet (l : List Nat) (x : Nat) : List Nat :=
  if x ∈ l then l else l ++ [x]

/-- The mutable state of the FunctionLog plugin (FunctionLog.h:57-71): the
shared TraceInfo, the uint32 scalars m_executedBBPc and m_callerPc, the module
entry point, the visited-pc set m_modulePcs, the call stack (head of the list
is the top of the std::stack), and the four per-state snapshot maps filled at
fork points. -/
structure FunctionLogState where
  ti : TraceInfo
  executedBBPc : Nat
  callerPc : Nat
  moduleEntryPoint : Nat
  modulePcs : List Nat
  callStack : List Nat
  tracesByState : List (Nat × TraceInfo)
  stacksByState : List (Nat × List Nat)
  execPcByState : List (Nat × Nat)
  callerPcByState : List (Nat × Nat)
deriving DecidableEq, Repr

/-- The state after FunctionLog::initialize (FunctionLog.cpp:26-46): a single
sentinel 0 in entries, m_callerPc = 0.  m_executedBBPc is uninitialized in the
C++; concrete runs write it before it is read, and the model starts it at 0. -/
def initFL : FunctionLogState :=
  { ti :=
      { entries := [0]
        entryToTbs := []
        callerToFollowUp := []
        entryToCaller := []
        entryToReturn := [] }
    executedBBPc := 0
    callerPc := 0
    moduleEntryPoint := 0
    modulePcs := []
    callStack := []
    tracesByState := []
    stacksByState := []
    execPcByState := []
    callerPcByState := [] }

/-- FunctionLog::slotModuleExecute (FunctionLog.cpp:83-113).  If the trailing
entries sentinel is 0, claim it with this pc and push the pc as the base call
frame; record the pc in m_modulePcs and m_executedBBPc; when the call stack is
nonempty, attribute the pc to the top frame and, if a caller is pending,
record the follow-up pair and clear m_callerPc (an empty stack only logs a
warning).  The save-interval file write is I/O and not modelled. -/
def slotModuleExecute (st : FunctionLogState) (pc : Nat) : FunctionLogState :=
  let st1 :=
    if st.ti.entries.getLast? = some 0 then
      { st with
        ti := { st.ti with entries := st.ti.entries.dropLast ++ [pc] }
        callStack := u32 pc :: st.callStack }
    else st
  let st2 :=
    { st1 with
      modulePcs := insertNatSet st1.modulePcs (u32 pc)
      executedBBPc := u32 pc }
  match st2.callStack with
  | [] => st2
  | top :: _ =>
    let ti1 := { st2.ti with entryToTbs := insertPairSet st2.ti.entryToTbs (top, u32 pc) }
    if st2.callerPc ≠ 0 then
      { st2 with
        ti := { ti1 with callerToFollowUp := ti1.callerToFollowUp ++ [(st2.callerPc, u32 pc)] }
        callerPc := 0 }
    else
      { st2 with ti := ti1 }

/-- FunctionLog::onFunctionCall (FunctionLog.cpp:115-138).  The two Bools
model the external module-descriptor test "(source && source->EntryPoint ==
m_moduleEntryPoint) || (dest && ...)": when it holds, push the callee and arm
the return signal (the matching retF event carries the same caller/callee). -/
def onFunctionCall (st : FunctionLogState) (sourceMatches destMatches : Bool)
    (callerPc calleePc : Nat) : FunctionLogState :=
  if sourceMatches || destMatches then
    { st with callStack := u32 calleePc :: st.callStack }
  else st

/-- FunctionLog::onFunctionReturn (FunctionLog.cpp:140-208).  The C++ first
logs a warning when the stack is already empty and then unconditionally calls
top()/pop(); on an empty std::stack that is undefined behavior, modelled as
none.  Otherwise pop the top frame; on a mismatch, if the stack became empty
push the frame back and log (the C++ has no return statement here and falls
through to the recording step), else if the new top also mismatches push the
frame back and abort, else pop one extra stale frame.  The recording step
appends a fresh 0 sentinel when the returning function is the last top-level
entry, records the entryToCaller and entryToReturn pairs, and sets
m_callerPc. -/
def onFunctionReturn (st : FunctionLogState) (returnSite funcCaller funcBegin : Nat) :
    Option FunctionLogState :=
  match st.callStack with
  | [] => none
  | top :: rest =>
    let record : FunctionLogState → FunctionLogState := fun st2 =>
      let st3 :=
        if st2.ti.entries.getLast? = some funcBegin then
          { st2 with ti := { st2.ti with entries := st2.ti.entries ++ [0] } }
        else st2
      { st3 with
        callerPc := u32 funcCaller
        ti :=
          { st3.ti with
            entryToCaller := st3.ti.entryToCaller ++ [(u32 funcBegin, u32 funcCaller)]
            entryToReturn := st3.ti.entryToReturn ++ [(u32 funcBegin, st3.executedBBPc)] } }
    if top ≠ funcBegin then
      if rest = [] then
        some (record { st with callStack := top :: rest })
      else if funcBegin ≠ rest.headD 0 then
        some { st with callStack := top :: rest }
      else
        some (record { st with callStack := rest.tail })
    else
      some (record { st with callStack := rest })

/-- FunctionLog::slotStateFork (FunctionLog.cpp:210-230): for each new state
id, emplace copies of the current TraceInfo, call stack, m_executedBBPc and
m_callerPc into the four snapshot maps.  (m_moduleEntryPoint and m_modulePcs
are not part of the snapshot.) -/
def slotStateFork (st : FunctionLogState) (newStateIds : List Nat) : FunctionLogState :=
  newStateIds.foldl
    (fun st2 sid =>
      { st2 with
        tracesByState := alistEmplace st2.tracesByState sid st2.ti
        stacksByState := alistEmplace st2.stacksByState sid st2.callStack
        execPcByState := alistEmplace st2.execPcByState sid st2.executedBBPc
        callerPcByState := alistEmplace st2.callerPcByState sid st2.callerPc })
    st

/-- FunctionLog::slotStateSwitch (FunctionLog.cpp:232-269): persist the
outgoing state's trace (file I/O, not modelled), restore the four snapshotted
components for the incoming state id, then erase the incoming id's snapshots
and any snapshots still stored under the outgoing id.  A missing snapshot for
the incoming id is the fatal assertion, modelled as none. -/
def slotStateSwitch (st : FunctionLogState) (curStateID newStateID : Nat) :
    Option FunctionLogState :=
  match alistLookup st.tracesByState newStateID,
        alistLookup st.stacksByState newStateID,
        alistLookup st.execPcByState newStateID,
        alistLookup st.callerPcByState newStateID with
  | some copyTi, some stk, some epc, some cpc =>
    some
      { st with
        ti := copyTi
        callStack := stk
        executedBBPc := epc
        callerPc := cpc
        tracesByState := alistErase (alistErase st.tracesByState newStateID) curStateID
        stacksByState := alistErase (alistErase st.stacksByState newStateID) curStateID
        execPcByState := alistErase (alistErase st.execPcByState newStateID) curStateID
        callerPcByState := alistErase (alistErase st.callerPcByState newStateID) curStateID }
  | _, _, _, _ => none

/-- The live-path events delivered by the execution engine to FunctionLog. -/
inductive FLEvent
  | execB (pc : Nat)
  | callF (sourceMatches destMatches : Bool) (callerPc calleePc : Nat)
  | retF (returnSite funcCaller funcBegin : Nat)
deriving DecidableEq, Repr

def stepFL (st : FunctionLogState) (e : FLEvent) : Option FunctionLogState :=
  match e with
  | FLEvent.execB pc => some (slotModuleExecute st pc)
  | FLEvent.callF s d c f => some (onFunctionCall st s d c f)
  | FLEvent.retF s c f => onFunctionReturn st s c f

def runFL (st : FunctionLogState) : List FLEvent → Option FunctionLogState
  | [] => some st
  | e :: t =>
    match stepFL st e with
    | some st2 => runFL st2 t
    | none => none

/-! ## Concrete values used by witnesses and counterexamples -/

/-- An ordinary instruction (no alloca, no call). -/
def instOther : Inst := { isAlloca := false, calledName := none }

/-- A call to helper_raise_exception. -/
def instExc : Inst := { isAlloca := false, calledName := some "helper_raise_exception" }

/-- A one-block function with a single ordinary instruction. -/
def fSimple : Func := { blocks := [[instOther]] }

/-- A last block whose final three instructions include an exception call. -/
def lastBlkExc : List Inst := [instOther, instExc, instOther]

def fOld10 : Func := { blocks := [[instOther], lastBlkExc] }

def fNew10 : Func := { blocks := [[instOther, instOther], lastBlkExc] }

def fOld10b : Func := { blocks := [[instOther], [instOther]] }

def fNew10b : Func := { blocks := [[instOther, instOther], [instOther]] }

/-! ## Bridge lemmas: the code's last-block scan versus the spec's wording -/

theorem drop_length_sub_one {α : Type} : (l : List α) →
    l.drop (l.length - 1) = (match l.getLast? with | none => [] | some x => [x])
  | [] => rfl
  | [_] => rfl
  | a :: b :: t => by
    have ih := drop_length_sub_one (b :: t)
    have h1 : (a :: b :: t).length - 1 = ((b :: t).length - 1) + 1 := by
      simp only [List.length_cons]
      omega
    rw [List.getLast?_cons_cons, ← ih, h1, List.drop_succ_cons]

theorem skipInst_window (l : List Inst) :
    skipInst l ((l.length : Int) - 3) = l.drop (l.length - 3) := by
  unfold skipInst
  by_cases h : ((l.length : Int) - 3) < 0
  · rw [if_pos h]
    have h2 : l.length - 3 = 0 := by omega
    rw [h2, List.drop_zero]
  · rw [if_neg h]
    congr 1
    omega

/-- The per-side loop of areBBsEqual computes exactly the spec's post-skip
count of the last basic segment and the spec's validity flag. -/
theorem scanBlocks_last (f : Func) (v : Bool) :
    scanBlocks (lastBlocks f) v = ((specSideCount f : Int), v && !specSideInvalid f) := by
  unfold lastBlocks specSideCount specSideInvalid specLastSegmentWindow
  rw [drop_length_sub_one]
  match f.blocks.getLast? with
  | none => simp [scanBlocks]
  | some blk => simp [scanBlocks, skipInst_window]

/-- Closed form of areBBsEqual at the call site's initial flags. -/
theorem areBBsEqual_spec (a b : Func) :
    areBBsEqual a b true true =
      (!(!specSideInvalid a && !specSideInvalid b &&
          (decide (specSideCount a ≠ specSideCount b))),
        !specSideInvalid a, !specSideInvalid b) := by
  unfold areBBsEqual
  rw [scanBlocks_last, scanBlocks_last]
  cases ha : specSideInvalid a <;> cases hb : specSideInvalid b <;>
    by_cases hc : specSideCount a = specSideCount b <;>
      simp [scanBlocks_last, ha, hb, hc, sub_eq_zero]

/-! ## Export helper lemmas -/

/-- The cache-hit path of exportBB: once a block has a nonzero pass count,
a call with regeneration disabled or the block finalized does nothing and
returns false (se_tb stays null). -/
theorem exportBB_cache_hit (st : ExportState) (pc : Nat) (g : Option Func)
    (hc : (st.bbCounts pc).getD 0 ≠ 0)
    (halt : st.regenerateBlocks = false ∨ st.bbFinalized pc = true) :
    exportBB st pc g = (false, st) := by
  rcases halt with h | h <;> simp [exportBB, hc, h]

/-- exportBB touches its per-address maps only at its own pc. -/
theorem exportBB_frame (st : ExportState) (pc q : Nat) (g : Option Func) (h : q ≠ pc) :
    (exportBB st pc g).2.bbCounts q = st.bbCounts q ∧
    (exportBB st pc g).2.bbFinalized q = st.bbFinalized q ∧
    (exportBB st pc g).2.tbs q = st.tbs q := by
  unfold exportBB
  by_cases h0 : (st.bbCounts pc).getD 0 = 0
  · cases g <;> simp [h0, setAt, emplaceAt, h]
  · by_cases h1 : (st.regenerateBlocks && !st.bbFinalized pc) = true
    · rw [if_neg h0, if_pos h1]
      cases htb : st.tbs pc with
      | none => cases g <;> simp [setAt, h]
      | some old =>
        cases g with
        | none => simp [setAt, h]
        | some newF => cases hd : regenDecision newF old <;> simp [hd, setAt, h]
    · rw [if_neg h0, if_neg h1]
      simp

/-- addSuccessor never touches the capture maps. -/
theorem addSuccessor_frame (st : ExportState) (p a : Nat) :
    (addSuccessor st p a).2.bbCounts = st.bbCounts ∧
    (addSuccessor st p a).2.bbFinalized = st.bbFinalized ∧
    (addSuccessor st p a).2.tbs = st.tbs := by
  unfold addSuccessor
  split <;> simp

/-! ## Claim C2: the finalization algorithm -/

/-- Concrete state for the C2 witness: pc 4096 captured once, representation
fSimple, regeneration enabled, not finalized. -/
def c2State : ExportState :=
  { initExport with
    bbCounts := setAt initExport.bbCounts 4096 (some 1)
    tbs := setAt initExport.tbs 4096 (some fSimple) }

/-- Claim C2 (confirmed): each side's validity flag is cleared iff an
exception-raising call appears among the final 3 post-skip instructions of
its last basic segment; with both sides valid, equal post-skip counts mean
finalize (the block's finalized flag is latched) and unequal counts mean
not-equal without finalization; an invalid side always prevents
finalization. -/
theorem c2_finalization_algorithm (st : ExportState) (pc : Nat) (newF old : Func)
    (hc : (st.bbCounts pc).getD 0 ≠ 0) (hr : st.regenerateBlocks = true)
    (hf : st.bbFinalized pc = false) (ht : st.tbs pc = some old) :
    ((areBBsEqual newF old true true).2.1 = !specSideInvalid newF) ∧
    ((areBBsEqual newF old true true).2.2 = !specSideInvalid old) ∧
    (specSideInvalid newF = false → specSideInvalid old = false →
      specSideCount newF = specSideCount old →
      regenDecision newF old = RegenOutcome.finalize ∧
      (exportBB st pc (some newF)).2.bbFinalized pc = true) ∧
    (specSideInvalid newF = false → specSideInvalid old = false →
      specSideCount newF ≠ specSideCount old →
      regenDecision newF old = RegenOutcome.replace ∧
      (exportBB st pc (some newF)).2.bbFinalized pc = false) ∧
    ((specSideInvalid newF = true ∨ specSideInvalid old = true) →
      regenDecision newF old ≠ RegenOutcome.finalize ∧
      (exportBB st pc (some newF)).2.bbFinalized pc = false) := by
  refine ⟨by rw [areBBsEqual_spec], by rw [areBBsEqual_spec], ?_, ?_, ?_⟩
  · intro hinew hiold hcnt
    have hdec : regenDecision newF old = RegenOutcome.finalize := by
      unfold regenDecision
      rw [areBBsEqual_spec]
      simp [hinew, hiold, hcnt]
    refine ⟨hdec, ?_⟩
    simp [exportBB, hc, hr, hf, ht, hdec, setAt]
  · intro hinew hiold hcnt
    have hdec : regenDecision newF old = RegenOutcome.replace := by
      unfold regenDecision
      rw [areBBsEqual_spec]
      simp [hinew, hiold, hcnt]
    refine ⟨hdec, ?_⟩
    simp [exportBB, hc, hr, hf, ht, hdec, setAt]
  · intro hbad
    have hdec : regenDecision newF old ≠ RegenOutcome.finalize := by
      unfold regenDecision
      rw [areBBsEqual_spec]
      rcases hbad with h | h <;> simp [h] <;> split <;> simp
    refine ⟨hdec, ?_⟩
    rcases hd : regenDecision newF old with _ | _ | _
    · exact absurd hd hdec
    · simp [exportBB, hc, hr, hf, ht, hd, setAt]
    · simp [exportBB, hc, hr, hf, ht, hd, setAt]

/-- Witness for C2 at a concrete input: regenerating fSimple against itself
is judged equal and finalizes the block. -/
theorem c2_witness :
    regenDecision fSimple fSimple = RegenOutcome.finalize ∧
    (exportBB c2State 4096 (some fSimple)).2.bbFinalized 4096 = true :=
  (c2_finalization_algorithm c2State 4096 fSimple fSimple (by decide) rfl rfl
    (by decide)).2.2.1 rfl rfl rfl

/-! ## Claim C3: the cache-hit path -/

/-- Concrete state for C3: pc 4096 captured and already finalized. -/
def c3State : ExportState :=
  { initExport with
    bbCounts := setAt initExport.bbCounts 4096 (some 2)
    bbFinalized := setAt initExport.bbFinalized 4096 true
    tbs := setAt initExport.tbs 4096 (some fSimple) }

/-- Counterexample to C3 as stated: on the cache-hit path (block captured
and finalized) exportBB returns false, not true — se_tb stays null and the
function exits through the failure return. -/
theorem c3_counterexample : (exportBB c3State 4096 (some fSimple)).1 = false := by
  decide

/-- Claim C3 (amended): for an address already captured, a later capture call
with regeneration disabled or the block finalized requests no regeneration and
leaves the state unchanged, but returns false (the boolean reports whether a
translation block was stored by this call). -/
theorem c3_cache_hit_no_work (st : ExportState) (pc : Nat) (g : Option Func)
    (hc : (st.bbCounts pc).getD 0 ≠ 0)
    (halt : st.regenerateBlocks = false ∨ st.bbFinalized pc = true) :
    exportBB st pc g = (false, st) :=
  exportBB_cache_hit st pc g hc halt

/-- Witness for the amended C3 at a concrete input. -/
theorem c3_witness : exportBB c3State 4096 (some fSimple) = (false, c3State) :=
  c3_cache_hit_no_work c3State 4096 (some fSimple) (by decide) (Or.inr (by decide))

/-! ## Claim C10: only the last basic segment is compared -/

/-- Concrete state for C10: pc 4096 captured once with representation
fOld10. -/
def c10State : ExportState :=
  { initExport with
    bbCounts := setAt initExport.bbCounts 4096 (some 1)
    tbs := setAt initExport.tbs 4096 (some fOld10) }

/-- Counterexample to C10 as stated: fNew10 and fOld10 differ only in basic
blocks before the last one, yet the shared last block carries an exception
call in its final-3 window, so both sides are invalid, the outcome is replace
rather than finalize, and the block is not finalized. -/
theorem c10_counterexample :
    fNew10.blocks.getLast? = fOld10.blocks.getLast? ∧
    fNew10 ≠ fOld10 ∧
    regenDecision fNew10 fOld10 = RegenOutcome.replace ∧
    (exportBB c10State 4096 (some fNew10)).2.bbFinalized 4096 = false := by
  decide

/-- Claim C10 (amended): the comparison inspects only each side's last basic
segment, so two representations with the same last basic block — provided
that block has no exception-raising call among the final 3 post-skip
instructions — are judged equal and finalized, whatever their earlier blocks
are. -/
theorem c10_last_segment_only (newF old : Func)
    (hlast : newF.blocks.getLast? = old.blocks.getLast?)
    (hvalid : specSideInvalid old = false) :
    regenDecision newF old = RegenOutcome.finalize := by
  have hinv : specSideInvalid newF = specSideInvalid old := by
    unfold specSideInvalid specLastSegmentWindow
    rw [hlast]
  have hcnt : specSideCount newF = specSideCount old := by
    unfold specSideCount
    rw [hlast]
  unfold regenDecision
  rw [areBBsEqual_spec]
  simp [hinv, hvalid, hcnt]

/-- Witness for the amended C10: two functions differing only in the blocks
before a clean shared last block finalize. -/
theorem c10_witness : regenDecision fNew10b fOld10b = RegenOutcome.finalize :=
  c10_last_segment_only fNew10b fOld10b (by decide) (by decide)

/-! ## Claim C4: finalization is a one-way latch -/

/-- Single-operation preservation: once a block with a nonzero pass count is
finalized, any Export operation leaves its finalized flag, stored
representation and pass count untouched. -/
theorem applyExportOp_finalized_frame (st : ExportState) (pc : Nat) (op : ExportOp)
    (hfin : st.bbFinalized pc = true) (hc : (st.bbCounts pc).getD 0 ≠ 0) :
    (applyExportOp st op).bbFinalized pc = true ∧
    (applyExportOp st op).tbs pc = st.tbs pc ∧
    (applyExportOp st op).bbCounts pc = st.bbCounts pc := by
  cases op with
  | exportCall pc2 g =>
    by_cases hpq : pc = pc2
    · subst hpq
      have hhit := exportBB_cache_hit st pc g hc (Or.inr hfin)
      simp [applyExportOp, hhit, hfin]
    · have hfr := exportBB_frame st pc2 pc g hpq
      exact ⟨hfr.2.1 ▸ hfin, hfr.2.2, hfr.1⟩
  | addSucc p a =>
    have hfr := addSuccessor_frame st p a
    simp [applyExportOp, hfr.1, hfr.2.1, hfr.2.2, hfin]
  | stopRegen => exact ⟨hfin, rfl, rfl⟩

/-- Claim C4 (confirmed): once an address's finalized flag is true (which
requires a nonzero pass count), it stays true across any further sequence of
Export operations, and the stored representation and pass count for that
address never change again. -/
theorem c4_finalized_latch (st : ExportState) (pc : Nat) (ops : List ExportOp)
    (hfin : st.bbFinalized pc = true)
    (hc : (st.bbCounts pc).getD 0 ≠ 0) :
    (runExport st ops).bbFinalized pc = true ∧
    (runExport st ops).tbs pc = st.tbs pc ∧
    (runExport st ops).bbCounts pc = st.bbCounts pc := by
  induction ops generalizing st with
  | nil => exact ⟨hfin, rfl, rfl⟩
  | cons op t ih =>
    have hstep := applyExportOp_finalized_frame st pc op hfin hc
    have hc2 : ((applyExportOp st op).bbCounts pc).getD 0 ≠ 0 := by
      rw [hstep.2.2]; exact hc
    have htail := ih (applyExportOp st op) hstep.1 hc2
    refine ⟨htail.1, ?_, ?_⟩
    · rw [show runExport st (op :: t) = runExport (applyExportOp st op) t from rfl,
        htail.2.1, hstep.2.1]
    · rw [show runExport st (op :: t) = runExport (applyExportOp st op) t from rfl,
        htail.2.2, hstep.2.2]

/-- Witness for C4: a concrete finalized state stays finalized and keeps its
representation across further capture calls and a stop-regeneration switch. -/
theorem c4_witness :
    (runExport c3State
        [ExportOp.exportCall 4096 (some fSimple), ExportOp.stopRegen,
         ExportOp.exportCall 4096 (some fOld10)]).bbFinalized 4096 = true ∧
    (runExport c3State
        [ExportOp.exportCall 4096 (some fSimple), ExportOp.stopRegen,
         ExportOp.exportCall 4096 (some fOld10)]).tbs 4096 = c3State.tbs 4096 ∧
    (runExport c3State
        [ExportOp.exportCall 4096 (some fSimple), ExportOp.stopRegen,
         ExportOp.exportCall 4096 (some fOld10)]).bbCounts 4096 = c3State.bbCounts 4096 :=
  c4_finalized_latch c3State 4096
    [ExportOp.exportCall 4096 (some fSimple), ExportOp.stopRegen,
     ExportOp.exportCall 4096 (some fOld10)] (by decide) (by decide)

/-! ## Claim C5: the generation counter -/

/-- Counterexample to C5 as stated: with regeneration disabled the first
capture sets the counter to 2, not 1; and a regeneration judged equal (the
finalizing pass) still increments the counter from 1 to 2. -/
theorem c5_counterexample :
    ((exportBB (stopRegeneratingBlocks initExport) 4096 (some fSimple)).2.bbCounts 4096
        = some 2) ∧
    ((exportBB (exportBB initExport 4096 (some fSimple)).2 4096 (some fSimple)).2.bbFinalized
        4096 = true ∧
      (exportBB (exportBB initExport 4096 (some fSimple)).2 4096 (some fSimple)).2.bbCounts
        4096 = some 2) := by
  decide

/-- Claim C5 (amended): the counter is 1 after the first capture when
regeneration is enabled and 2 when it is disabled (set even before the null
check); afterwards it is incremented on every regeneration attempt — also on
one judged equal, i.e. the finalizing pass — and it is unchanged on a cache
hit. -/
theorem c5_generation_rules (st : ExportState) (pc : Nat) (g : Option Func) (old : Func) :
    (st.bbCounts pc = none →
      (exportBB st pc g).2.bbCounts pc = some (if st.regenerateBlocks then 1 else 2)) ∧
    ((st.bbCounts pc).getD 0 ≠ 0 → st.regenerateBlocks = true → st.bbFinalized pc = false →
      st.tbs pc = some old → ∀ newF,
      (exportBB st pc (some newF)).2.bbCounts pc = some ((st.bbCounts pc).getD 0 + 1)) ∧
    ((st.bbCounts pc).getD 0 ≠ 0 → (st.regenerateBlocks = false ∨ st.bbFinalized pc = true) →
      (exportBB st pc g).2.bbCounts pc = st.bbCounts pc) := by
  refine ⟨?_, ?_, ?_⟩
  · intro h0
    have hz : (st.bbCounts pc).getD 0 = 0 := by rw [h0]; rfl
    cases hrg : st.regenerateBlocks <;> cases g <;> simp [exportBB, hz, hrg, setAt]
  · intro hc hr hf ht newF
    cases hd : regenDecision newF old <;> simp [exportBB, hc, hr, hf, ht, hd, setAt]
  · intro hc halt
    rw [exportBB_cache_hit st pc g hc halt]

/-- Witness for the amended C5 at concrete inputs: first capture with
regeneration enabled yields counter 1, the finalizing second pass yields 2,
and a cache hit leaves it at 2. -/
theorem c5_witness :
    (exportBB initExport 4096 (some fSimple)).2.bbCounts 4096 = some (if true then 1 else 2) :=
  (c5_generation_rules initExport 4096 (some fSimple) fSimple).1 rfl

/-! ## Claim C6: addSuccessor -/

/-- Iterated insertion of the same successor pair. -/
def iterAddSuccessor (st : ExportState) (p a : Nat) : Nat → ExportState
  | 0 => st
  | n + 1 => (addSuccessor (iterAddSuccessor st p a n) p a).2

/-- Once a pair occurs exactly once in the successors set, another
addSuccessor call keeps it at exactly once. -/
theorem addSuccessor_count_stable (s : ExportState) (p a : Nat)
    (h : s.successors.count (p, a) = 1) :
    ((addSuccessor s p a).2).successors.count (p, a) = 1 := by
  unfold addSuccessor
  split
  · simpa using h
  · have hmem : (p, a) ∈ s.successors := by
      have : 0 < s.successors.count (p, a) := by omega
      exact List.count_pos_iff.mp this
    simp [insertPairSet, hmem, h]

/-- Claim C6 (confirmed): addSuccessor(0, a) fails without mutation;
addSuccessor(p, a) fails without mutation when no block is captured for a;
otherwise it returns true and, however often the insertion is repeated, the
successors set contains the pair exactly once (given the set invariant that
it held the pair at most once to begin with). -/
theorem c6_add_successor_spec (st : ExportState) (p a : Nat)
    (hcount : st.successors.count (p, a) ≤ 1) :
    (addSuccessor st 0 a = (false, st)) ∧
    (getBB st a = none → addSuccessor st p a = (false, st)) ∧
    (p ≠ 0 → (getBB st a).isSome = true →
      (addSuccessor st p a).1 = true ∧
      ∀ n, (iterAddSuccessor st p a (n + 1)).successors.count (p, a) = 1) := by
  refine ⟨by simp [addSuccessor], ?_, ?_⟩
  · intro hnone
    simp [addSuccessor, hnone]
  · intro hp hsome
    have hcond : ¬(p = 0 || (getBB st a).isNone) = true := by
      simp [hp, Option.isNone_iff_eq_none]
      intro hn
      rw [hn] at hsome
      simp at hsome
    refine ⟨by simp [addSuccessor, hcond], ?_⟩
    intro n
    induction n with
    | zero =>
      show ((addSuccessor st p a).2).successors.count (p, a) = 1
      unfold addSuccessor
      rw [if_neg hcond]
      by_cases hmem : (p, a) ∈ st.successors
      · have h1 : 0 < st.successors.count (p, a) := List.count_pos_iff.mpr hmem
        simp [insertPairSet, hmem]
        omega
      · have h0 : st.successors.count (p, a) = 0 := by
          rw [List.count_eq_zero]
          exact hmem
        simp [insertPairSet, hmem, h0]
    | succ m ihm =>
      show ((addSuccessor (iterAddSuccessor st p a (m + 1)) p a).2).successors.count (p, a) = 1
      exact addSuccessor_count_stable _ p a ihm

/-- Concrete state for the C6 witness: pc 4096 is captured. -/
def c6State : ExportState :=
  { initExport with tbs := setAt initExport.tbs 4096 (some fSimple) }

/-- Witness for C6 at a concrete input: inserting (7, 4096) twice yields a
true result and a set holding the pair exactly once. -/
theorem c6_witness :
    (addSuccessor c6State 7 4096).1 = true ∧
    (iterAddSuccessor c6State 7 4096 2).successors.count (7, 4096) = 1 := by
  have h := (c6_add_successor_spec c6State 7 4096 (by decide)).2.2 (by decide) (by decide)
  exact ⟨h.1, h.2 1⟩

/-! ## Claim C1: mismatched return with the stack empty after the pop -/

/-- Concrete state for C1: call stack holds only frame 10, last top-level
entry 4096, last executed block 99, no edges recorded yet. -/
def flC1State : FunctionLogState :=
  { initFL with
    callStack := [10]
    ti := { initFL.ti with entries := [4096] }
    executedBBPc := 99 }

/-- Counterexample to C1 as stated: returning callee 11 while the stack holds
only the mismatching frame 10 pushes the frame back and logs, but the C++
branch has no return statement, so the return is NOT aborted: entryToCaller
gains (11, 4096), entryToReturnSite gains (11, 99) and pendingCallerPc is
set to 4096 — none of them is left unchanged. -/
theorem c1_counterexample :
    (onFunctionReturn flC1State 4100 4096 11).map
      (fun s => (s.callStack, s.ti.entryToCaller, s.ti.entryToReturn, s.callerPc)) =
      some ([10], [(11, 4096)], [(11, 99)], 4096) := by
  decide

/-- Claim C1 (amended): when the popped frame mismatches the callee and the
stack is empty after the pop, the popped frame is pushed back and a warning is
logged, but the return then proceeds instead of aborting: entryToCaller gains
(calleeAddr, callerAddr), entryToReturnSite gains (calleeAddr,
executedBlockPc) and pendingCallerPc is set to callerAddr; only the call
stack is left as it was before the pop. -/
theorem c1_mismatch_empty_falls_through (st : FunctionLogState)
    (site caller callee top : Nat)
    (hstack : st.callStack = [top]) (hne : top ≠ callee) :
    ∃ st2, onFunctionReturn st site caller callee = some st2 ∧
      st2.callStack = [top] ∧
      st2.callerPc = u32 caller ∧
      st2.ti.entryToCaller = st.ti.entryToCaller ++ [(u32 callee, u32 caller)] ∧
      st2.ti.entryToReturn = st.ti.entryToReturn ++ [(u32 callee, st.executedBBPc)] := by
  unfold onFunctionReturn
  rw [hstack]
  dsimp only
  rw [if_pos hne, if_pos rfl]
  refine ⟨_, rfl, ?_⟩
  dsimp only
  split <;> simp

/-- Witness for the amended C1 at the concrete input of the counterexample
state. -/
theorem c1_witness :
    ∃ st2, onFunctionReturn flC1State 4100 4096 11 = some st2 ∧
      st2.callStack = [10] ∧
      st2.callerPc = u32 4096 ∧
      st2.ti.entryToCaller = flC1State.ti.entryToCaller ++ [(u32 11, u32 4096)] ∧
      st2.ti.entryToReturn = flC1State.ti.entryToReturn ++ [(u32 11, flC1State.executedBBPc)] :=
  c1_mismatch_empty_falls_through flC1State 4100 4096 11 10 rfl (by decide)

/-! ## Claim C7: return notification on an already-empty stack -/

/-- Claim C7, evaluated at its failing input: a return arriving with the call
stack already empty reaches the C++'s unconditional top()/pop() on an empty
std::stack — the undefined-behavior branch the claim says is unreachable. -/
theorem c7_empty_stack_hits_ub :
    onFunctionReturn initFL 4100 4096 8192 = none := rfl

/-! ## Claim C8: what entryToReturnSite records -/

/-- Run for the C8 counterexample: enter at 4096, call 8192, execute the
callee blocks 8192 and 8208, return to return site 4100, then execute 4100. -/
def c8Events : List FLEvent :=
  [FLEvent.execB 4096, FLEvent.callF true false 4096 8192, FLEvent.execB 8192,
   FLEvent.execB 8208, FLEvent.retF 4100 4096 8192, FLEvent.execB 4100]

/-- Counterexample to C8 as stated: in this run the return of 8192 is matched
and proceeds, the block executed immediately after the return is 4100, yet
entryToReturnSite never gains (8192, 4100); it records (8192, 8208), the last
block executed before the return. -/
theorem c8_counterexample :
    (runFL initFL c8Events).map
      (fun s => (s.ti.entryToReturn.contains (8192, 4100), s.ti.entryToReturn)) =
      some (false, [(8192, 8208)]) := by
  decide

/-- Claim C8 (amended): every matched (proceeding) return of callee f records
into entryToReturnSite the pair (f, executedBlockPc), where executedBlockPc is
the last block executed before the return notification (in general the
callee's final block), not the block executed after the return. -/
theorem c8_records_last_executed (st : FunctionLogState)
    (site caller callee : Nat) (rest : List Nat)
    (hstack : st.callStack = callee :: rest) :
    ∃ st2, onFunctionReturn st site caller callee = some st2 ∧
      (u32 callee, st.executedBBPc) ∈ st2.ti.entryToReturn := by
  unfold onFunctionReturn
  rw [hstack]
  dsimp only
  rw [if_neg (by simp)]
  refine ⟨_, rfl, ?_⟩
  dsimp only
  split <;> simp

/-- Concrete state for the C8 witness. -/
def c8WitState : FunctionLogState :=
  { initFL with
    callStack := [8192]
    executedBBPc := 8208
    ti := { initFL.ti with entries := [4096] } }

/-- Witness for the amended C8 at a concrete input. -/
theorem c8_witness :
    ∃ st2, onFunctionReturn c8WitState 4100 4096 8192 = some st2 ∧
      (u32 8192, c8WitState.executedBBPc) ∈ st2.ti.entryToReturn :=
  c8_records_last_executed c8WitState 4100 4096 8192 [] rfl

/-! ## Claim C9: fork snapshots and switch restoration -/

theorem alistLookup_append_self {α : Type} (l : List (Nat × α)) (k : Nat) (v : α)
    (h : alistLookup l k = none) :
    alistLookup (l ++ [(k, v)]) k = some v := by
  induction l with
  | nil => simp [alistLookup]
  | cons p t ih =>
    obtain ⟨k2, w⟩ := p
    rw [List.cons_append]
    unfold alistLookup at h ⊢
    by_cases hk : k2 = k
    · rw [if_pos hk] at h
      exact absurd h (by simp)
    · rw [if_neg hk] at h ⊢
      exact ih h

theorem alistLookup_cons {α : Type} (k3 : Nat) (w : α) (t : List (Nat × α)) (k2 : Nat) :
    alistLookup ((k3, w) :: t) k2 = if k3 = k2 then some w else alistLookup t k2 := rfl

theorem alistLookup_erase_ne {α : Type} (l : List (Nat × α)) (k k2 : Nat) (h : k2 ≠ k) :
    alistLookup (alistErase l k) k2 = alistLookup l k2 := by
  induction l with
  | nil => rfl
  | cons p t ih =>
    obtain ⟨k3, w⟩ := p
    unfold alistErase at ih ⊢
    rw [List.filter_cons]
    by_cases hk : (k3 != k) = true
    · rw [if_pos hk, alistLookup_cons, alistLookup_cons]
      by_cases hk2 : k3 = k2
      · rw [if_pos hk2, if_pos hk2]
      · rw [if_neg hk2, if_neg hk2, ih]
    · rw [if_neg hk]
      have hk3 : k3 = k := by simpa using hk
      subst hk3
      rw [ih, alistLookup_cons, if_neg (fun hh => h hh.symm)]

/-- slotModuleExecute never touches the snapshot tables. -/
theorem slotModuleExecute_tables (st : FunctionLogState) (pc : Nat) :
    (slotModuleExecute st pc).tracesByState = st.tracesByState ∧
    (slotModuleExecute st pc).stacksByState = st.stacksByState ∧
    (slotModuleExecute st pc).execPcByState = st.execPcByState ∧
    (slotModuleExecute st pc).callerPcByState = st.callerPcByState := by
  unfold slotModuleExecute
  split <;> (try dsimp only) <;> (repeat' split) <;> simp

/-- onFunctionCall never touches the snapshot tables. -/
theorem onFunctionCall_tables (st : FunctionLogState) (s d : Bool) (c f : Nat) :
    (onFunctionCall st s d c f).tracesByState = st.tracesByState ∧
    (onFunctionCall st s d c f).stacksByState = st.stacksByState ∧
    (onFunctionCall st s d c f).execPcByState = st.execPcByState ∧
    (onFunctionCall st s d c f).callerPcByState = st.callerPcByState := by
  unfold onFunctionCall
  split <;> simp

/-- onFunctionReturn never touches the snapshot tables. -/
theorem onFunctionReturn_tables (st st2 : FunctionLogState) (s c f : Nat)
    (h : onFunctionReturn st s c f = some st2) :
    st2.tracesByState = st.tracesByState ∧
    st2.stacksByState = st.stacksByState ∧
    st2.execPcByState = st.execPcByState ∧
    st2.callerPcByState = st.callerPcByState := by
  unfold onFunctionReturn at h
  rcases hs : st.callStack with _ | ⟨top, rest⟩ <;> rw [hs] at h
  · cases h
  · dsimp only at h
    repeat' split at h
    all_goals (cases h; simp)

/-- A live-path event never touches the snapshot tables. -/
theorem stepFL_tables (st st2 : FunctionLogState) (e : FLEvent)
    (h : stepFL st e = some st2) :
    st2.tracesByState = st.tracesByState ∧
    st2.stacksByState = st.stacksByState ∧
    st2.execPcByState = st.execPcByState ∧
    st2.callerPcByState = st.callerPcByState := by
  cases e with
  | execB pc =>
    have h2 : st2 = slotModuleExecute st pc := by simpa [stepFL] using h.symm
    subst h2
    exact slotModuleExecute_tables st pc
  | callF s d c f =>
    have h2 : st2 = onFunctionCall st s d c f := by simpa [stepFL] using h.symm
    subst h2
    exact onFunctionCall_tables st s d c f
  | retF s c f => exact onFunctionReturn_tables st st2 s c f h

/-- A whole run of live-path events never touches the snapshot tables. -/
theorem runFL_tables (evs : List FLEvent) : ∀ (st st2 : FunctionLogState),
    runFL st evs = some st2 →
    st2.tracesByState = st.tracesByState ∧
    st2.stacksByState = st.stacksByState ∧
    st2.execPcByState = st.execPcByState ∧
    st2.callerPcByState = st.callerPcByState := by
  induction evs with
  | nil =>
    intro st st2 h
    cases h
    exact ⟨rfl, rfl, rfl, rfl⟩
  | cons e t ih =>
    intro st st2 h
    unfold runFL at h
    cases he : stepFL st e with
    | none => rw [he] at h; cases h
    | some stm =>
      rw [he] at h
      have ha := stepFL_tables st stm e he
      have hb := ih stm st2 h
      exact ⟨hb.1.trans ha.1, hb.2.1.trans ha.2.1, hb.2.2.1.trans ha.2.2.1,
        hb.2.2.2.trans ha.2.2.2⟩

/-- Base state for the C9 counterexample and witness: one visited address
256, top-level entry 4096 on the stack. -/
def c9Base : FunctionLogState :=
  { initFL with
    modulePcs := [256]
    ti := { initFL.ti with entries := [4096] }
    callStack := [4096] }

/-- Counterexample to C9 as stated: fork path 5 off c9Base, execute block 512
on the live path (growing visitedAddresses), then switch to path 5.  The
restored state shows the parent's post-fork mutation in visitedAddresses
([256, 512] instead of the fork-time [256]) because m_modulePcs is not part
of the snapshot, although the TraceLog and call stack are restored. -/
theorem c9_counterexample :
    ((runFL (slotStateFork c9Base [5]) [FLEvent.execB 512]).bind
        (fun stm => slotStateSwitch stm 1 5)).map
      (fun st3 => (st3.modulePcs, st3.callStack, st3.ti.entries)) =
      some ([256, 512], [4096], [4096]) := by
  decide

/-- Claim C9 (amended): at a fork the snapshot stored per descendant id holds
deep copies of the TraceLog, the call stack, the last executed block address
and the pending caller address — but not moduleEntryPoint (set once at load)
or visitedAddresses, which are shared across paths.  For the stored fields:
any later live-path mutation leaves the stored snapshot unchanged, restoring
it on a switch yields exactly the fork-time values, and the restore leaves
every other id's snapshot unchanged. -/
theorem c9_snapshot_isolation (st : FunctionLogState) (sid other cur : Nat)
    (evs : List FLEvent) (st2 : FunctionLogState)
    (h1 : alistLookup st.tracesByState sid = none)
    (h2 : alistLookup st.stacksByState sid = none)
    (h3 : alistLookup st.execPcByState sid = none)
    (h4 : alistLookup st.callerPcByState sid = none)
    (hrun : runFL (slotStateFork st [sid]) evs = some st2)
    (ho1 : other ≠ sid) (ho2 : other ≠ cur) :
    alistLookup st2.tracesByState sid = some st.ti ∧
    alistLookup st2.stacksByState sid = some st.callStack ∧
    alistLookup st2.execPcByState sid = some st.executedBBPc ∧
    alistLookup st2.callerPcByState sid = some st.callerPc ∧
    ∃ st3, slotStateSwitch st2 cur sid = some st3 ∧
      st3.ti = st.ti ∧ st3.callStack = st.callStack ∧
      st3.executedBBPc = st.executedBBPc ∧ st3.callerPc = st.callerPc ∧
      alistLookup st3.tracesByState other = alistLookup st2.tracesByState other ∧
      alistLookup st3.stacksByState other = alistLookup st2.stacksByState other ∧
      alistLookup st3.execPcByState other = alistLookup st2.execPcByState other ∧
      alistLookup st3.callerPcByState other = alistLookup st2.callerPcByState other := by
  have hT := runFL_tables evs (slotStateFork st [sid]) st2 hrun
  have hF1 : (slotStateFork st [sid]).tracesByState = st.tracesByState ++ [(sid, st.ti)] := by
    simp [slotStateFork, alistEmplace, h1]
  have hF2 : (slotStateFork st [sid]).stacksByState
      = st.stacksByState ++ [(sid, st.callStack)] := by
    simp [slotStateFork, alistEmplace, h2]
  have hF3 : (slotStateFork st [sid]).execPcByState
      = st.execPcByState ++ [(sid, st.executedBBPc)] := by
    simp [slotStateFork, alistEmplace, h3]
  have hF4 : (slotStateFork st [sid]).callerPcByState
      = st.callerPcByState ++ [(sid, st.callerPc)] := by
    simp [slotStateFork, alistEmplace, h4]
  have hL1 : alistLookup st2.tracesByState sid = some st.ti := by
    rw [hT.1, hF1]
    exact alistLookup_append_self _ _ _ h1
  have hL2 : alistLookup st2.stacksByState sid = some st.callStack := by
    rw [hT.2.1, hF2]
    exact alistLookup_append_self _ _ _ h2
  have hL3 : alistLookup st2.execPcByState sid = some st.executedBBPc := by
    rw [hT.2.2.1, hF3]
    exact alistLookup_append_self _ _ _ h3
  have hL4 : alistLookup st2.callerPcByState sid = some st.callerPc := by
    rw [hT.2.2.2, hF4]
    exact alistLookup_append_self _ _ _ h4
  refine ⟨hL1, hL2, hL3, hL4, ?_⟩
  unfold slotStateSwitch
  rw [hL1, hL2, hL3, hL4]
  refine ⟨_, rfl, rfl, rfl, rfl, rfl, ?_, ?_, ?_, ?_⟩
  all_goals dsimp only
  all_goals rw [alistLookup_erase_ne _ _ _ ho2, alistLookup_erase_ne _ _ _ ho1]

/-- Witness for the amended C9 at a concrete input (fork id 5, other id 6,
outgoing id 1, no intervening events). -/
theorem c9_witness :
    alistLookup (slotStateFork c9Base [5]).tracesByState 5 = some c9Base.ti ∧
    alistLookup (slotStateFork c9Base [5]).stacksByState 5 = some c9Base.callStack ∧
    alistLookup (slotStateFork c9Base [5]).execPcByState 5 = some c9Base.executedBBPc ∧
    alistLookup (slotStateFork c9Base [5]).callerPcByState 5 = some c9Base.callerPc ∧
    ∃ st3, slotStateSwitch (slotStateFork c9Base [5]) 1 5 = some st3 ∧
      st3.ti = c9Base.ti ∧ st3.callStack = c9Base.callStack ∧
      st3.executedBBPc = c9Base.executedBBPc ∧ st3.callerPc = c9Base.callerPc ∧
      alistLookup st3.tracesByState 6
        = alistLookup (slotStateFork c9Base [5]).tracesByState 6 ∧
      alistLookup st3.stacksByState 6
        = alistLookup (slotStateFork c9Base [5]).stacksByState 6 ∧
      alistLookup st3.execPcByState 6
        = alistLookup (slotStateFork c9Base [5]).execPcByState 6 ∧
      alistLookup st3.callerPcByState 6
        = alistLookup (slotStateFork c9Base [5]).callerPcByState 6 :=
  c9_snapshot_isolation c9Base 5 6 1 [] (slotStateFork c9Base [5]) rfl rfl rfl rfl rfl
    (by decide) (by decide)

end Binrec
